import Mathlib

/-!
Shallow embedding of the persistence core of the todo-notes-tracker
application (src/src-tauri/src/main.rs): the day-keyed document store
(load_day_data / save_day_data), todo construction (create_todo_item),
the legacy calendar-event migration (migrate_calendar_events_to_todos)
and the preference store (zoom level and dark mode).

Modelling conventions:
- The filesystem is the contents of the application data directory,
  a map from file name to file content.  Reads and writes that the Rust
  code performs with std::fs are total here (the OS-level I/O failure
  branches are not modelled); every operation returns the resulting
  filesystem next to its Result value, so that the absence of writes is
  itself a proved property.
- JSON text is modelled at the level of parsed JSON values: a stored
  file either holds a JSON value (FileContent.json) or text that is not
  valid JSON (FileContent.raw).  serde_json::from_str is the partial
  function that succeeds exactly on the json constructor, followed by a
  shape decoder mirroring the serde derive for the target type.
- f64 is modelled as F64: a finite rational, or NaN, or an infinity.
  The zoom constants 0.5, 3.0 and 1.0 and the clamping at those bounds
  are exact in this model.
- chrono DateTime values (the created_at field) are carried as their
  RFC 3339 text rendering, an opaque string in this embedding.
- chrono NaiveDate parsing with format %Y-%m-%d is modelled on the
  canonical zero-padded YYYY-MM-DD form, exactly the form the code
  itself produces with date.format.
- The impure inputs of todo construction (Uuid::new_v4 and Local::now)
  become explicit arguments: a supply function gives the id and the
  timestamp of the n-th todo an operation creates.
-/

/-- A parsed JSON value, as in serde_json::Value.  Numbers are
rationals: every number literal that appears in a JSON file is finite
and decimal. -/
inductive Json where
  | null : Json
  | bool : Bool → Json
  | num : ℚ → Json
  | str : String → Json
  | arr : List Json → Json
  | obj : List (String × Json) → Json

/-- Content of one stored file: either a valid JSON document or text
that serde_json::from_str rejects. -/
inductive FileContent where
  | json : Json → FileContent
  | raw : String → FileContent

/-- The application data directory: file name, to content of the file
when it exists. -/
def FS : Type := String → Option FileContent

/-- fs::write - full overwrite of one file. -/
def writeFile (fs : FS) (name : String) (c : FileContent) : FS :=
  fun n => if n = name then some c else fs n

/-- fs::rename - move src onto dst, overwriting dst.  Call sites in the
source only rename a file they just read, so the failure branch for a
missing source is not modelled. -/
def renameFile (fs : FS) (src dst : String) : FS :=
  fun n => if n = dst then fs src else if n = src then none else fs n

/-- An f64 value: a finite value (modelled exactly as a rational), NaN,
or an infinity. -/
inductive F64 where
  | finite : ℚ → F64
  | nan : F64
  | inf : F64
  | negInf : F64
deriving DecidableEq

/-- f64::is_finite. -/
def F64.isFinite : F64 → Bool
  | .finite _ => true
  | _ => false

/-- Rust Display rendering of an f64, used only inside error message
text.  The decimal rendering of finite values is abstracted. -/
def F64.display : F64 → String
  | .finite _ => "finite"
  | .nan => "NaN"
  | .inf => "inf"
  | .negInf => "-inf"

/-- const MIN_ZOOM: f64 = 0.5. -/
def MIN_ZOOM : ℚ := 1 / 2

/-- const MAX_ZOOM: f64 = 3.0. -/
def MAX_ZOOM : ℚ := 3

/-- A calendar date, as chrono NaiveDate restricted to the years the
zero-padded four-digit rendering covers. -/
structure Date where
  year : ℕ
  month : ℕ
  day : ℕ
deriving DecidableEq

/-- Gregorian leap-year rule, as in chrono. -/
def isLeap (y : ℕ) : Bool :=
  y % 4 = 0 && (y % 100 ≠ 0 || y % 400 = 0)

/-- Number of days of month m in year y. -/
def daysInMonth (y m : ℕ) : ℕ :=
  if m = 2 then (if isLeap y then 29 else 28)
  else if m = 4 || m = 6 || m = 9 || m = 11 then 30
  else 31

/-- Validity of a Date, as NaiveDate::from_ymd_opt (restricted to the
four-digit years). -/
def Date.valid (d : Date) : Bool :=
  d.year ≤ 9999 && 1 ≤ d.month && d.month ≤ 12 &&
    1 ≤ d.day && d.day ≤ daysInMonth d.year d.month

/-- The decimal digit character of n, for n below ten. -/
def digitToChar (n : ℕ) : Char := Char.ofNat (48 + n)

/-- The value of a decimal digit character (Char.isDigit stated on the
code point). -/
def charToDigit (c : Char) : Option ℕ :=
  if 48 ≤ c.toNat && c.toNat ≤ 57 then some (c.toNat - 48) else none

/-- date.format with format string %Y-%m-%d: the canonical zero-padded
YYYY-MM-DD rendering. -/
def formatDate (d : Date) : String :=
  String.mk [digitToChar (d.year / 1000 % 10), digitToChar (d.year / 100 % 10),
    digitToChar (d.year / 10 % 10), digitToChar (d.year % 10), '-',
    digitToChar (d.month / 10 % 10), digitToChar (d.month % 10), '-',
    digitToChar (d.day / 10 % 10), digitToChar (d.day % 10)]

/-- NaiveDate::parse_from_str with format %Y-%m-%d, on the canonical
zero-padded form: ten characters, digits and two dashes, naming a valid
calendar date. -/
def parseDate (s : String) : Option Date :=
  match s.data with
  | [y1, y2, y3, y4, s1, m1, m2, s2, d1, d2] =>
    if s1 = '-' && s2 = '-' then
      match charToDigit y1, charToDigit y2, charToDigit y3, charToDigit y4,
            charToDigit m1, charToDigit m2, charToDigit d1, charToDigit d2 with
      | some a, some b, some c, some d, some e, some f, some g, some h =>
        let dt : Date := ⟨1000 * a + 100 * b + 10 * c + d, 10 * e + f, 10 * g + h⟩
        if dt.valid then some dt else none
      | _, _, _, _, _, _, _, _ => none
    else none
  | _ => none

/-- RFC 3339 text of a chrono DateTime with local offset, kept opaque. -/
def Timestamp : Type := String

instance : DecidableEq Timestamp := fun a b => String.decEq a b

/-- struct TodoItem of main.rs. -/
structure TodoItem where
  id : String
  text : String
  completed : Bool
  created_at : Timestamp
  move_to_next_day : Bool
  notes : String
deriving DecidableEq

/-- struct DayData of main.rs. -/
structure DayData where
  date : Date
  todos : List TodoItem
  notes : String
deriving DecidableEq

/-- serde_json Value lookup of a field of an object (json.get). -/
def Json.getField (j : Json) (k : String) : Option Json :=
  match j with
  | .obj fields => fields.lookup k
  | _ => none

/-- Extract a JSON string (serde string deserialization). -/
def Json.asStr : Json → Option String
  | .str s => some s
  | _ => none

/-- Extract a JSON boolean (Value::as_bool). -/
def Json.asBool : Json → Option Bool
  | .bool b => some b
  | _ => none

/-- Extract a JSON number as f64 (Value::as_f64).  JSON numbers are
finite, so the result is the finite rational payload. -/
def Json.asNum : Json → Option ℚ
  | .num q => some q
  | _ => none

/-- Extract a JSON array. -/
def Json.asArr : Json → Option (List Json)
  | .arr xs => some xs
  | _ => none

/-- Serialization of TodoItem, per its serde derive: all six fields in
declaration order, created_at as its RFC 3339 text. -/
def encodeTodoItem (t : TodoItem) : Json :=
  .obj [("id", .str t.id), ("text", .str t.text), ("completed", .bool t.completed),
    ("created_at", .str t.created_at), ("move_to_next_day", .bool t.move_to_next_day),
    ("notes", .str t.notes)]

/-- Deserialization of TodoItem, per its serde derive: every field is
required except notes, which carries serde(default) and falls back to
the empty string when the field is absent. -/
def decodeTodoItem (j : Json) : Option TodoItem := do
  let id ← (j.getField "id").bind Json.asStr
  let text ← (j.getField "text").bind Json.asStr
  let completed ← (j.getField "completed").bind Json.asBool
  let created_at ← (j.getField "created_at").bind Json.asStr
  let move_to_next_day ← (j.getField "move_to_next_day").bind Json.asBool
  let notes ← match j.getField "notes" with
    | none => some ""
    | some v => Json.asStr v
  pure ⟨id, text, completed, created_at, move_to_next_day, notes⟩

/-- Serialization of DayData: the date as its YYYY-MM-DD text, the
todos in order, the day notes. -/
def encodeDayData (d : DayData) : Json :=
  .obj [("date", .str (formatDate d.date)),
    ("todos", .arr (d.todos.map encodeTodoItem)),
    ("notes", .str d.notes)]

/-- Deserialization of DayData: all three fields required, the date
parsed from its ISO text. -/
def decodeDayData (j : Json) : Option DayData := do
  let dateStr ← (j.getField "date").bind Json.asStr
  let date ← parseDate dateStr
  let todosJ ← (j.getField "todos").bind Json.asArr
  let todos ← todosJ.mapM decodeTodoItem
  let notes ← (j.getField "notes").bind Json.asStr
  pure ⟨date, todos, notes⟩

/-- Deserialization of the legacy event store, a
HashMap of date key to list of event texts.  The entries are kept in
the order they appear in the stored object; HashMap iteration order in
the source is arbitrary, and every property proved below is
independent of that order. -/
def decodeEventMap (j : Json) : Option (List (String × List String)) :=
  match j with
  | .obj fields =>
    fields.mapM (fun kv => (kv.2.asArr.bind (List.mapM Json.asStr)).map
      (fun evs => (kv.1, evs)))
  | _ => none

/-- The file name a day record is stored under: YYYY-MM-DD.json. -/
def dayFile (d : Date) : String := formatDate d ++ ".json"

/-- File name of the legacy event store. -/
def eventsFileName : String := "calendar_events.json"

/-- File name the legacy store is retired to. -/
def backupFileName : String := "calendar_events.json.backup"

/-- File name of the zoom preference. -/
def zoomFileName : String := "zoom_level.json"

/-- File name of the dark-mode preference. -/
def darkFileName : String := "dark_mode.json"

/-- An empty day record for a date with no backing file. -/
def emptyDay (d : Date) : DayData := ⟨d, [], ""⟩

/-- Read the day file of date d: a fresh empty DayData when the file is
absent, its decoded content when it parses, an error (message chosen by
the caller) when the content does not deserialize.  This is the shared
body of load_day_data and of the per-date read inside the migration. -/
def readDay (errMsg : String) (d : Date) (fs : FS) : Except String DayData :=
  match fs (dayFile d) with
  | none => .ok (emptyDay d)
  | some (.json j) =>
    match decodeDayData j with
    | some day => .ok day
    | none => .error errMsg
  | some (.raw _) => .error errMsg

/-- load_day_data of main.rs: parse the date string strictly, then read
the day file, creating an empty record in memory when the file does not
exist.  The filesystem is returned unchanged on every path: the source
performs no write. -/
def load_day_data (date : String) (fs : FS) : Except String DayData × FS :=
  match parseDate date with
  | none => (.error ("Invalid date format: " ++ date), fs)
  | some d => (readDay "Failed to parse JSON" d fs, fs)

/-- save_day_data of main.rs: serialize the whole record and overwrite
the day file derived from its date field. -/
def save_day_data (dayData : DayData) (fs : FS) : Except String Unit × FS :=
  (.ok (), writeFile fs (dayFile dayData.date) (.json (encodeDayData dayData)))

/-- create_todo_item of main.rs.  The Uuid::new_v4 and Local::now
results are the explicit id and now arguments; the construction itself
is pure and total. -/
def create_todo_item (text : String) (id : String) (now : Timestamp) :
    Except String TodoItem :=
  .ok ⟨id, text, false, now, false, ""⟩

/-- The todo a migrated calendar event becomes: fresh id and timestamp
from the supply, the event text, and the creation defaults. -/
def mkMigratedTodo (idts : String × Timestamp) (text : String) : TodoItem :=
  ⟨idts.1, text, false, idts.2, false, ""⟩

/-- The todos of one date's event list, the n-th consuming index k + n
of the id/timestamp supply. -/
def convertEvents (gen : ℕ → String × Timestamp) : ℕ → List String → List TodoItem
  | _, [] => []
  | k, text :: rest => mkMigratedTodo (gen k) text :: convertEvents gen (k + 1) rest

/-- Success message of a migration that found no legacy file. -/
def noFileMsg : String := "No calendar events file found - migration not needed"

/-- Success message of a migration that found an empty legacy map. -/
def emptyMsg : String := "Calendar events file was empty - backed up and removed"

/-- Success message of a migration that moved count events across days
distinct dates. -/
def successMsg (count days : ℕ) : String :=
  "Successfully migrated " ++ toString count ++ " calendar events from " ++
    toString days ++ " days to todos. Backup saved as calendar_events.json.backup"

/-- The per-date loop of migrate_calendar_events_to_todos: for each
entry parse the date key, read the existing day record, convert the
events, prepend them to the existing todos and write the day file back;
the running count, the list of processed date keys and the filesystem
are threaded through.  An error aborts the loop, keeping the writes
already made. -/
def migrateLoop (gen : ℕ → String × Timestamp) :
    List (String × List String) → ℕ → ℕ → List String → FS →
    Except String (ℕ × List String) × FS
  | [], _, count, dates, fs => (.ok (count, dates), fs)
  | (dateStr, evs) :: rest, k, count, dates, fs =>
    match parseDate dateStr with
    | none => (.error ("Invalid date format in calendar events: " ++ dateStr), fs)
    | some d =>
      match readDay "Failed to parse day data" d fs with
      | .error e => (.error e, fs)
      | .ok day =>
        let newTodos := convertEvents gen k evs
        let day2 : DayData := ⟨day.date, newTodos ++ day.todos, day.notes⟩
        migrateLoop gen rest (k + evs.length) (count + newTodos.length)
          (dates ++ [dateStr]) (writeFile fs (dayFile d) (.json (encodeDayData day2)))

/-- migrate_calendar_events_to_todos of main.rs.  gen supplies the id
and timestamp of each todo the run creates. -/
def migrate_calendar_events_to_todos (gen : ℕ → String × Timestamp) (fs : FS) :
    Except String String × FS :=
  match fs eventsFileName with
  | none => (.ok noFileMsg, fs)
  | some (.raw _) => (.error "Failed to parse calendar events", fs)
  | some (.json j) =>
    match decodeEventMap j with
    | none => (.error "Failed to parse calendar events", fs)
    | some evts =>
      if evts.isEmpty then
        (.ok emptyMsg, renameFile fs eventsFileName backupFileName)
      else
        match migrateLoop gen evts 0 0 [] fs with
        | (.error e, fs1) => (.error e, fs1)
        | (.ok (count, dates), fs1) =>
          (.ok (successMsg count dates.length),
            renameFile fs1 eventsFileName backupFileName)

/-- Error message of a rejected non-finite zoom value. -/
def invalidZoomMsg (z : F64) : String :=
  "Invalid zoom level: " ++ z.display ++ ". Must be a finite number between 0.5 and 3"

/-- f64::clamp at the zoom bounds, on the finite values the code
reaches it with. -/
def clampZoom (q : ℚ) : ℚ :=
  if q < MIN_ZOOM then MIN_ZOOM else if q > MAX_ZOOM then MAX_ZOOM else q

/-- save_zoom_preference_to_path of main.rs: reject a non-finite value
before any write, otherwise clamp into the zoom range and persist. -/
def save_zoom_preference_to_path (z : F64) (fs : FS) : Except String Unit × FS :=
  match z with
  | .finite q =>
    (.ok (), writeFile fs zoomFileName
      (.json (.obj [("zoom_level", .num (clampZoom q))])))
  | _ => (.error (invalidZoomMsg z), fs)

/-- load_zoom_preference_from_path of main.rs: 1.0 when the file is
absent; an error when its content is not valid JSON; otherwise the
stored zoom_level number when it is present and within the zoom range,
and 1.0 when the field is missing, not a number, or out of range. -/
def load_zoom_preference_from_path (fs : FS) : Except String ℚ × FS :=
  match fs zoomFileName with
  | none => (.ok 1, fs)
  | some (.raw _) => (.error "Failed to parse zoom preference", fs)
  | some (.json j) =>
    let z := ((j.getField "zoom_level").bind Json.asNum).getD 1
    (.ok (if MIN_ZOOM ≤ z ∧ z ≤ MAX_ZOOM then z else 1), fs)

/-- save_dark_mode_preference of main.rs (the path-level core): persist
the boolean verbatim. -/
def save_dark_mode_preference (darkMode : Bool) (fs : FS) : Except String Unit × FS :=
  (.ok (), writeFile fs darkFileName (.json (.obj [("dark_mode", .bool darkMode)])))

/-- load_dark_mode_preference of main.rs (the path-level core): false
when the file is absent; an error when its content is not valid JSON;
otherwise the dark_mode field when it is present and boolean, and false
when it is missing or of another type. -/
def load_dark_mode_preference (fs : FS) : Except String Bool × FS :=
  match fs darkFileName with
  | none => (.ok false, fs)
  | some (.raw _) => (.error "Failed to parse dark mode preference", fs)
  | some (.json j) =>
    (.ok (((j.getField "dark_mode").bind Json.asBool).getD false), fs)

/-- get_zoom_limits of main.rs. -/
def get_zoom_limits : ℚ × ℚ := (MIN_ZOOM, MAX_ZOOM)

/-! ### Date formatting and parsing -/

theorem charToDigit_digitToChar (n : ℕ) (h : n < 10) :
    charToDigit (digitToChar n) = some n := by
  interval_cases n <;> decide

theorem charToDigit_lt (c : Char) (n : ℕ) (h : charToDigit c = some n) : n < 10 := by
  unfold charToDigit at h
  split at h
  · rename_i hc
    simp only [Bool.and_eq_true, decide_eq_true_eq] at hc
    injection h with h
    omega
  · exact Option.noConfusion h

theorem digitToChar_charToDigit (c : Char) (n : ℕ) (h : charToDigit c = some n) :
    digitToChar n = c := by
  unfold charToDigit at h
  split at h
  · rename_i hc
    simp only [Bool.and_eq_true, decide_eq_true_eq] at hc
    injection h with h
    have h48 : 48 + n = c.toNat := by omega
    unfold digitToChar
    rw [h48, Char.ofNat_toNat]
  · exact Option.noConfusion h

theorem daysInMonth_le_31 (y m : ℕ) : daysInMonth y m ≤ 31 := by
  unfold daysInMonth
  split
  · split <;> omega
  · split <;> omega

theorem Date.valid_bounds (d : Date) (hv : d.valid = true) :
    d.year ≤ 9999 ∧ 1 ≤ d.month ∧ d.month ≤ 12 ∧ 1 ≤ d.day ∧ d.day ≤ 31 := by
  unfold Date.valid at hv
  simp only [Bool.and_eq_true, decide_eq_true_eq] at hv
  have := daysInMonth_le_31 d.year d.month
  omega

theorem parseDate_formatDate (d : Date) (hv : d.valid = true) :
    parseDate (formatDate d) = some d := by
  obtain ⟨hy, hm1, hm2, hd1, hd2⟩ := Date.valid_bounds d hv
  have h1 := charToDigit_digitToChar (d.year / 1000 % 10) (Nat.mod_lt _ (by omega))
  have h2 := charToDigit_digitToChar (d.year / 100 % 10) (Nat.mod_lt _ (by omega))
  have h3 := charToDigit_digitToChar (d.year / 10 % 10) (Nat.mod_lt _ (by omega))
  have h4 := charToDigit_digitToChar (d.year % 10) (Nat.mod_lt _ (by omega))
  have h5 := charToDigit_digitToChar (d.month / 10 % 10) (Nat.mod_lt _ (by omega))
  have h6 := charToDigit_digitToChar (d.month % 10) (Nat.mod_lt _ (by omega))
  have h7 := charToDigit_digitToChar (d.day / 10 % 10) (Nat.mod_lt _ (by omega))
  have h8 := charToDigit_digitToChar (d.day % 10) (Nat.mod_lt _ (by omega))
  have hyr : 1000 * (d.year / 1000 % 10) + 100 * (d.year / 100 % 10) +
      10 * (d.year / 10 % 10) + d.year % 10 = d.year := by omega
  have hmo : 10 * (d.month / 10 % 10) + d.month % 10 = d.month := by omega
  have hdy : 10 * (d.day / 10 % 10) + d.day % 10 = d.day := by omega
  simp only [parseDate, formatDate, h1, h2, h3, h4, h5, h6, h7, h8, hyr, hmo, hdy]
  simp [hv]

theorem formatDate_parseDate (s : String) (d : Date) (h : parseDate s = some d) :
    formatDate d = s := by
  obtain ⟨data⟩ := s
  unfold parseDate at h
  split at h
  · rename_i y1 y2 y3 y4 s1 m1 m2 s2 d1 d2 heq
    split at h
    · rename_i hsep
      simp only [Bool.and_eq_true, decide_eq_true_eq] at hsep
      split at h
      · rename_i a b c dd e f g hh ha hb hc hd he hf hg hhh
        have h' : (if (Date.mk (1000 * a + 100 * b + 10 * c + dd) (10 * e + f)
            (10 * g + hh)).valid = true then
            some (Date.mk (1000 * a + 100 * b + 10 * c + dd) (10 * e + f) (10 * g + hh))
            else none) = some d := h
        clear h
        split at h'
        · rename_i hv
          injection h' with h'
          subst h'
          have la := charToDigit_lt _ _ ha
          have lb := charToDigit_lt _ _ hb
          have lc := charToDigit_lt _ _ hc
          have ld := charToDigit_lt _ _ hd
          have le' := charToDigit_lt _ _ he
          have lf := charToDigit_lt _ _ hf
          have lg := charToDigit_lt _ _ hg
          have lh := charToDigit_lt _ _ hhh
          have ey1 : (1000 * a + 100 * b + 10 * c + dd) / 1000 % 10 = a := by omega
          have ey2 : (1000 * a + 100 * b + 10 * c + dd) / 100 % 10 = b := by omega
          have ey3 : (1000 * a + 100 * b + 10 * c + dd) / 10 % 10 = c := by omega
          have ey4 : (1000 * a + 100 * b + 10 * c + dd) % 10 = dd := by omega
          have em1 : (10 * e + f) / 10 % 10 = e := by omega
          have em2 : (10 * e + f) % 10 = f := by omega
          have ed1 : (10 * g + hh) / 10 % 10 = g := by omega
          have ed2 : (10 * g + hh) % 10 = hh := by omega
          simp only [formatDate, ey1, ey2, ey3, ey4, em1, em2, ed1, ed2,
            digitToChar_charToDigit _ _ ha, digitToChar_charToDigit _ _ hb,
            digitToChar_charToDigit _ _ hc, digitToChar_charToDigit _ _ hd,
            digitToChar_charToDigit _ _ he, digitToChar_charToDigit _ _ hf,
            digitToChar_charToDigit _ _ hg, digitToChar_charToDigit _ _ hhh]
          have hdata : data = [y1, y2, y3, y4, s1, m1, m2, s2, d1, d2] := by
            simpa using heq
          rw [hdata, hsep.1, hsep.2]
        · exact Option.noConfusion h'
      · exact Option.noConfusion h
    · exact Option.noConfusion h
  · exact Option.noConfusion h

/-- A successfully parsed date string is the canonical rendering of its
date, so distinct keys name distinct dates. -/
theorem parseDate_inj (s t : String) (d : Date)
    (hs : parseDate s = some d) (ht : parseDate t = some d) : s = t := by
  rw [← formatDate_parseDate s d hs, ← formatDate_parseDate t d ht]

theorem formatDate_data_length (d : Date) : (formatDate d).data.length = 10 := rfl

theorem dayFile_inj (d1 d2 : Date) (h : dayFile d1 = dayFile d2) :
    formatDate d1 = formatDate d2 := by
  unfold dayFile at h
  have hd := congrArg String.data h
  rw [String.data_append, String.data_append] at hd
  have := List.append_inj hd (by rw [formatDate_data_length, formatDate_data_length])
  obtain ⟨h1, -⟩ := this
  exact String.ext h1

theorem dayFile_length (d : Date) : (dayFile d).length = 15 := by
  unfold dayFile
  rw [String.length_append]
  rfl

theorem dayFile_ne_eventsFile (d : Date) : dayFile d ≠ eventsFileName := by
  intro h
  have := congrArg String.length h
  rw [dayFile_length] at this
  exact absurd this (by decide)

theorem dayFile_ne_backupFile (d : Date) : dayFile d ≠ backupFileName := by
  intro h
  have := congrArg String.length h
  rw [dayFile_length] at this
  exact absurd this (by decide)

/-! ### Serialization round-trips -/

theorem decodeTodoItem_encodeTodoItem (t : TodoItem) :
    decodeTodoItem (encodeTodoItem t) = some t := rfl

theorem mapM_decode_encode (ts : List TodoItem) :
    (ts.map encodeTodoItem).mapM decodeTodoItem = some ts := by
  induction ts with
  | nil => rfl
  | cons t ts ih =>
    rw [List.map_cons, List.mapM_cons, decodeTodoItem_encodeTodoItem, ih]
    rfl

theorem decodeDayData_encodeDayData (day : DayData) (hv : day.date.valid = true) :
    decodeDayData (encodeDayData day) = some day := by
  have hstep : decodeDayData (encodeDayData day) =
      (parseDate (formatDate day.date)).bind (fun date =>
        ((day.todos.map encodeTodoItem).mapM decodeTodoItem).bind (fun todos =>
          some ⟨date, todos, day.notes⟩)) := rfl
  rw [hstep, parseDate_formatDate day.date hv, mapM_decode_encode]
  rfl

/-! ### Concrete inputs for witnesses -/

/-- A data directory with no files. -/
def emptyFS : FS := fun _ => none

/-- A concrete valid date. -/
def sampleDate : Date := ⟨2024, 1, 15⟩

/-- A concrete todo with every field populated. -/
def sampleTodo : TodoItem :=
  ⟨"id-1", "Buy milk", true, "2024-01-15T09:00:00+01:00", false, "milk notes"⟩

/-- A concrete day record. -/
def sampleDay : DayData := ⟨sampleDate, [sampleTodo], "day notes"⟩

/-! ### Claims about the day document store -/

/-- C1: for every valid calendar date D and every DayData value V with
V.date = D, saving V and then loading the YYYY-MM-DD string of D from
the same directory returns a DayData equal to V: same date, the todos
in the same order with every field equal, and the same day notes. -/
theorem c1_save_load_roundtrip (V : DayData) (fs : FS) (hv : V.date.valid = true) :
    (load_day_data (formatDate V.date) ((save_day_data V fs).2)).1 = .ok V := by
  have hwr : (save_day_data V fs).2 (dayFile V.date) =
      some (.json (encodeDayData V)) := by
    unfold save_day_data writeFile
    simp
  simp only [load_day_data, parseDate_formatDate V.date hv, readDay, hwr,
    decodeDayData_encodeDayData V hv]

/-- Witness for C1 at a concrete day record holding one todo. -/
theorem c1_witness : sampleDay.date.valid = true ∧
    (load_day_data (formatDate sampleDay.date) ((save_day_data sampleDay emptyFS).2)).1 =
      .ok sampleDay :=
  ⟨by decide, c1_save_load_roundtrip sampleDay emptyFS (by decide)⟩

/-- C5: for every syntactically valid YYYY-MM-DD date string whose day
file does not exist, load_day_data succeeds with a fresh empty DayData
for that date and leaves the filesystem unchanged: no file is created. -/
theorem c5_load_missing_day (s : String) (d : Date) (fs : FS)
    (hp : parseDate s = some d) (hmiss : fs (dayFile d) = none) :
    load_day_data s fs = (.ok (emptyDay d), fs) := by
  simp only [load_day_data, hp, readDay, hmiss]

/-- Witness for C5 at a concrete date string and the empty directory. -/
theorem c5_witness : parseDate "2024-01-15" = some sampleDate ∧
    emptyFS (dayFile sampleDate) = none ∧
    load_day_data "2024-01-15" emptyFS = (.ok (emptyDay sampleDate), emptyFS) :=
  ⟨by decide, rfl, c5_load_missing_day "2024-01-15" sampleDate emptyFS (by decide) rfl⟩

/-- C6: for every input text - empty, long or multi-byte alike -
create_todo_item returns Ok with a TodoItem carrying that text, the
supplied fresh id and current-time stamp, completed = false,
move_to_next_day = false, and empty notes. -/
theorem c6_create_todo_item (text id : String) (now : Timestamp) :
    create_todo_item text id now = .ok ⟨id, text, false, now, false, ""⟩ := rfl

/-- C7: a stored TodoItem record that lacks the notes field still
deserializes, yielding notes = the empty string; the record is not
rejected for the missing field. -/
theorem c7_decode_missing_notes (id text : String) (completed : Bool)
    (created_at : Timestamp) (mv : Bool) :
    decodeTodoItem (.obj [("id", .str id), ("text", .str text),
      ("completed", .bool completed), ("created_at", .str created_at),
      ("move_to_next_day", .bool mv)]) =
      some ⟨id, text, completed, created_at, mv, ""⟩ := rfl

/-! ### Claims about the zoom preference store -/

/-- C9: for every non-finite zoom value (NaN or either infinity),
save_zoom fails with the invalid-input error and leaves the filesystem
unchanged: the value is never persisted. -/
theorem c9_save_zoom_nonfinite (z : F64) (fs : FS) (h : z.isFinite = false) :
    save_zoom_preference_to_path z fs = (.error (invalidZoomMsg z), fs) := by
  cases z with
  | finite q => exact absurd h (by simp [F64.isFinite])
  | nan => rfl
  | inf => rfl
  | negInf => rfl

/-- Witness for C9 at all three non-finite values. -/
theorem c9_witness : F64.nan.isFinite = false ∧
    save_zoom_preference_to_path F64.nan emptyFS =
      (.error (invalidZoomMsg F64.nan), emptyFS) ∧
    save_zoom_preference_to_path F64.inf emptyFS =
      (.error (invalidZoomMsg F64.inf), emptyFS) ∧
    save_zoom_preference_to_path F64.negInf emptyFS =
      (.error (invalidZoomMsg F64.negInf), emptyFS) :=
  ⟨rfl, c9_save_zoom_nonfinite F64.nan emptyFS rfl,
    c9_save_zoom_nonfinite F64.inf emptyFS rfl,
    c9_save_zoom_nonfinite F64.negInf emptyFS rfl⟩

/-- C10: every finite zoom value is accepted and the clamp of the value
into the closed range from MIN_ZOOM to MAX_ZOOM is persisted: an
in-range value is stored exactly, an out-of-range finite value is
silently clamped to the nearest bound. -/
theorem c10_save_zoom_finite (q : ℚ) (fs : FS) :
    save_zoom_preference_to_path (.finite q) fs =
      (.ok (), writeFile fs zoomFileName
        (.json (.obj [("zoom_level", .num (clampZoom q))]))) ∧
    (MIN_ZOOM ≤ q → q ≤ MAX_ZOOM → clampZoom q = q) ∧
    (q < MIN_ZOOM → clampZoom q = MIN_ZOOM) ∧
    (MAX_ZOOM < q → clampZoom q = MAX_ZOOM) := by
  refine ⟨rfl, ?_, ?_, ?_⟩
  · intro h1 h2
    unfold clampZoom
    rw [if_neg (not_lt.mpr h1), if_neg (not_lt.mpr h2)]
  · intro h
    unfold clampZoom
    rw [if_pos h]
  · intro h
    have h0 : ¬ q < MIN_ZOOM := by
      unfold MIN_ZOOM MAX_ZOOM at *
      linarith
    unfold clampZoom
    rw [if_neg h0, if_pos h]

/-- Witness for C10: an in-range value stored exactly, and values
beyond either bound clamped to that bound. -/
theorem c10_witness :
    save_zoom_preference_to_path (.finite 10) emptyFS =
      (.ok (), writeFile emptyFS zoomFileName
        (.json (.obj [("zoom_level", .num (clampZoom 10))]))) ∧
    (MIN_ZOOM ≤ 1 ∧ (1 : ℚ) ≤ MAX_ZOOM ∧ clampZoom 1 = 1) ∧
    ((10 : ℚ) > MAX_ZOOM ∧ clampZoom 10 = MAX_ZOOM) ∧
    ((0 : ℚ) < MIN_ZOOM ∧ clampZoom 0 = MIN_ZOOM) :=
  ⟨(c10_save_zoom_finite 10 emptyFS).1,
    ⟨by norm_num [MIN_ZOOM], by norm_num [MAX_ZOOM],
      (c10_save_zoom_finite 1 emptyFS).2.1 (by norm_num [MIN_ZOOM]) (by norm_num [MAX_ZOOM])⟩,
    ⟨by norm_num [MAX_ZOOM], (c10_save_zoom_finite 10 emptyFS).2.2.2 (by norm_num [MAX_ZOOM])⟩,
    ⟨by norm_num [MIN_ZOOM], (c10_save_zoom_finite 0 emptyFS).2.2.1 (by norm_num [MIN_ZOOM])⟩⟩

/-- A data directory whose zoom preference file holds text that is not
valid JSON. -/
def corruptZoomFS : FS :=
  fun n => if n = zoomFileName then some (.raw "not json") else none

/-- C3 counterexample: the claim says an unreadable stored value is
coerced to 1.0 and that load_zoom only fails on I/O errors; but on a
zoom file whose content is not valid JSON the code returns a parse
error, not Ok 1.0. -/
theorem c3_counterexample :
    (load_zoom_preference_from_path corruptZoomFS).1 =
      .error "Failed to parse zoom preference" ∧
    (load_zoom_preference_from_path corruptZoomFS).1 ≠ .ok 1 := by
  constructor
  · rfl
  · intro h
    exact Except.noConfusion h

/-- C3 amended: load_zoom returns 1.0 without error when the file is
absent; when the file holds valid JSON, an out-of-range stored number
and a missing or non-numeric zoom_level field are both coerced to 1.0;
but when the file content is not valid JSON the load fails with a
parse error (in addition to the I/O failure case, not modelled). -/
theorem c3_load_zoom_amended (fs : FS) :
    (fs zoomFileName = none → load_zoom_preference_from_path fs = (.ok 1, fs)) ∧
    (∀ j q, fs zoomFileName = some (.json j) →
      (j.getField "zoom_level").bind Json.asNum = some q →
      ¬(MIN_ZOOM ≤ q ∧ q ≤ MAX_ZOOM) →
      load_zoom_preference_from_path fs = (.ok 1, fs)) ∧
    (∀ j, fs zoomFileName = some (.json j) →
      (j.getField "zoom_level").bind Json.asNum = none →
      load_zoom_preference_from_path fs = (.ok 1, fs)) ∧
    (∀ s, fs zoomFileName = some (.raw s) →
      load_zoom_preference_from_path fs =
        (.error "Failed to parse zoom preference", fs)) := by
  refine ⟨?_, ?_, ?_, ?_⟩
  · intro h
    simp only [load_zoom_preference_from_path, h]
  · intro j q h hq hrange
    simp only [load_zoom_preference_from_path, h, hq, Option.getD_some, if_neg hrange]
  · intro j h hq
    simp only [load_zoom_preference_from_path, h, hq, Option.getD_none]
    rw [if_pos (by unfold MIN_ZOOM MAX_ZOOM; norm_num)]
  · intro s h
    simp only [load_zoom_preference_from_path, h]

/-- Witness for C3 (amended) on a missing file, an out-of-range stored
value and a non-JSON file. -/
theorem c3_witness :
    load_zoom_preference_from_path emptyFS = (.ok 1, emptyFS) ∧
    load_zoom_preference_from_path corruptZoomFS =
      (.error "Failed to parse zoom preference", corruptZoomFS) :=
  ⟨(c3_load_zoom_amended emptyFS).1 rfl,
    (c3_load_zoom_amended corruptZoomFS).2.2.2 "not json" rfl⟩

/-- A data directory whose dark-mode preference file holds valid JSON
of the wrong shape: an object with no dark_mode field. -/
def wrongShapeDarkFS : FS :=
  fun n => if n = darkFileName then some (.json (.obj [])) else none

/-- C4 counterexample: on a dark-mode file holding the JSON document
with no dark_mode boolean field - valid JSON, wrong shape - the claim
demands a CorruptData failure, but the code returns Ok false. -/
theorem c4_counterexample :
    (Json.obj []).getField "dark_mode" = none ∧
    (load_dark_mode_preference wrongShapeDarkFS).1 = .ok false :=
  ⟨rfl, rfl⟩

/-- C4 amended: load_dark_mode returns false without error when the
file is absent; it fails only when the existing file's content is not
valid JSON; valid JSON with a boolean dark_mode field yields that
boolean, and valid JSON without one yields false. -/
theorem c4_load_dark_amended (fs : FS) :
    (fs darkFileName = none → load_dark_mode_preference fs = (.ok false, fs)) ∧
    (∀ s, fs darkFileName = some (.raw s) →
      load_dark_mode_preference fs =
        (.error "Failed to parse dark mode preference", fs)) ∧
    (∀ j b, fs darkFileName = some (.json j) →
      (j.getField "dark_mode").bind Json.asBool = some b →
      load_dark_mode_preference fs = (.ok b, fs)) ∧
    (∀ j, fs darkFileName = some (.json j) →
      (j.getField "dark_mode").bind Json.asBool = none →
      load_dark_mode_preference fs = (.ok false, fs)) := by
  refine ⟨?_, ?_, ?_, ?_⟩
  · intro h
    simp only [load_dark_mode_preference, h]
  · intro s h
    simp only [load_dark_mode_preference, h]
  · intro j b h hb
    simp only [load_dark_mode_preference, h, hb, Option.getD_some]
  · intro j h hb
    simp only [load_dark_mode_preference, h, hb, Option.getD_none]

/-- Witness for C4 (amended) on a missing file and on a wrong-shape
JSON file. -/
theorem c4_witness :
    load_dark_mode_preference emptyFS = (.ok false, emptyFS) ∧
    load_dark_mode_preference wrongShapeDarkFS = (.ok false, wrongShapeDarkFS) :=
  ⟨(c4_load_dark_amended emptyFS).1 rfl,
    (c4_load_dark_amended wrongShapeDarkFS).2.2.2 (.obj []) rfl rfl⟩

/-! ### Migration messages -/

theorem successMsg_head (c d : ℕ) : (successMsg c d).data.head? = some 'S' := by
  unfold successMsg
  simp only [String.data_append]
  rfl

theorem emptyMsg_ne_successMsg (c d : ℕ) : emptyMsg ≠ successMsg c d := by
  intro h
  have h2 := congrArg (fun s => s.data.head?) h
  rw [show (fun (s : String) => s.data.head?) emptyMsg = some 'C' from rfl,
    show (fun (s : String) => s.data.head?) (successMsg c d) =
      (successMsg c d).data.head? from rfl, successMsg_head] at h2
  exact absurd (Option.some.inj h2) (by decide)

/-- C8: when the legacy calendar_events.json exists and parses to an
empty map, migration still renames it to its .backup name - the
original is gone and the backup holds the old content - touches no
other file, and returns the distinct empty-map success message, which
differs from the no-file message and from every migrated-N message. -/
theorem c8_migrate_empty (gen : ℕ → String × Timestamp) (fs : FS) (j : Json)
    (hf : fs eventsFileName = some (.json j)) (he : decodeEventMap j = some []) :
    migrate_calendar_events_to_todos gen fs =
      (.ok emptyMsg, renameFile fs eventsFileName backupFileName) ∧
    (renameFile fs eventsFileName backupFileName) backupFileName = some (.json j) ∧
    (renameFile fs eventsFileName backupFileName) eventsFileName = none ∧
    (∀ n, n ≠ eventsFileName → n ≠ backupFileName →
      (renameFile fs eventsFileName backupFileName) n = fs n) ∧
    emptyMsg ≠ noFileMsg ∧
    (∀ count days, emptyMsg ≠ successMsg count days) := by
  refine ⟨?_, ?_, ?_, ?_, ?_, fun c d => emptyMsg_ne_successMsg c d⟩
  · simp only [migrate_calendar_events_to_todos, hf, he, List.isEmpty_nil, if_pos]
  · simp only [renameFile, if_pos, hf]
  · simp [renameFile]
    intro h
    exact absurd h (by decide)
  · intro n h1 h2
    simp only [renameFile, if_neg h2, if_neg h1]
  · decide

/-- A data directory holding an empty legacy event map and one
unrelated day file. -/
def emptyEventsFS : FS :=
  fun n =>
    if n = eventsFileName then some (.json (.obj []))
    else if n = dayFile sampleDate then some (.json (encodeDayData sampleDay))
    else none

/-- Witness for C8 on a directory with an empty legacy map. -/
theorem c8_witness :
    migrate_calendar_events_to_todos (fun _ => ("id", "t")) emptyEventsFS =
      (.ok emptyMsg, renameFile emptyEventsFS eventsFileName backupFileName) ∧
    (renameFile emptyEventsFS eventsFileName backupFileName) eventsFileName = none ∧
    (renameFile emptyEventsFS eventsFileName backupFileName) backupFileName =
      some (.json (.obj [])) ∧
    (renameFile emptyEventsFS eventsFileName backupFileName) (dayFile sampleDate) =
      emptyEventsFS (dayFile sampleDate) :=
  ⟨(c8_migrate_empty (fun _ => ("id", "t")) emptyEventsFS (.obj []) rfl rfl).1,
    (c8_migrate_empty (fun _ => ("id", "t")) emptyEventsFS (.obj []) rfl rfl).2.2.1,
    (c8_migrate_empty (fun _ => ("id", "t")) emptyEventsFS (.obj []) rfl rfl).2.1,
    (c8_migrate_empty (fun _ => ("id", "t")) emptyEventsFS (.obj []) rfl rfl).2.2.2.1
      (dayFile sampleDate) (dayFile_ne_eventsFile sampleDate)
      (dayFile_ne_backupFile sampleDate)⟩

/-! ### The migration loop -/

theorem readDay_eq (msg : String) (d : Date) (fs fs2 : FS)
    (h : fs (dayFile d) = fs2 (dayFile d)) :
    readDay msg d fs = readDay msg d fs2 := by
  unfold readDay
  rw [h]

theorem dayFile_ne_of_key_ne (s t : String) (d e : Date)
    (hs : parseDate s = some d) (ht : parseDate t = some e) (hne : s ≠ t) :
    dayFile d ≠ dayFile e := by
  intro h
  apply hne
  rw [← formatDate_parseDate s d hs, ← formatDate_parseDate t e ht]
  exact dayFile_inj d e h

/-- The loop writes only to the day files of the date keys it
processes: any other name is untouched. -/
theorem migrateLoop_frame (gen : ℕ → String × Timestamp) (name : String) :
    ∀ (pending : List (String × List String)) (k count : ℕ) (dates : List String)
      (fs : FS) (res : Except String (ℕ × List String)) (fs1 : FS),
      migrateLoop gen pending k count dates fs = (res, fs1) →
      (∀ p ∈ pending, ∀ d, parseDate p.1 = some d → name ≠ dayFile d) →
      fs1 name = fs name := by
  intro pending
  induction pending with
  | nil =>
    intro k count dates fs res fs1 h hn
    simp only [migrateLoop] at h
    injection h with h1 h2
    rw [← h2]
  | cons p rest ih =>
    obtain ⟨s, evs⟩ := p
    intro k count dates fs res fs1 h hn
    simp only [migrateLoop] at h
    split at h
    · injection h with h1 h2
      rw [← h2]
    · rename_i d hp
      split at h
      · injection h with h1 h2
        rw [← h2]
      · rename_i day hr
        have hname : name ≠ dayFile d := hn (s, evs) (List.mem_cons_self _ _) d hp
        have hrec := ih _ _ _ _ _ _ h
          (fun p hp2 d2 hd2 => hn p (List.mem_cons_of_mem _ hp2) d2 hd2)
        rw [hrec]
        simp only [writeFile, if_neg hname]

/-- Each processed date key of a successful loop run ends with its day
file holding the converted events followed by the todos the day had
when the loop started, with the date and notes fields unchanged. -/
theorem migrateLoop_mem (gen : ℕ → String × Timestamp) :
    ∀ (pending : List (String × List String)) (k count : ℕ) (dates : List String)
      (fs : FS) (res : ℕ × List String) (fs1 : FS) (s : String) (evs : List String),
      migrateLoop gen pending k count dates fs = (.ok res, fs1) →
      (pending.map Prod.fst).Nodup →
      (s, evs) ∈ pending →
      ∃ k2 d day, parseDate s = some d ∧
        readDay "Failed to parse day data" d fs = .ok day ∧
        fs1 (dayFile d) = some (.json (encodeDayData
          ⟨day.date, convertEvents gen k2 evs ++ day.todos, day.notes⟩)) := by
  intro pending
  induction pending with
  | nil =>
    intro k count dates fs res fs1 s evs h hnd hmem
    exact absurd hmem (List.not_mem_nil _)
  | cons p rest ih =>
    obtain ⟨s0, evs0⟩ := p
    intro k count dates fs res fs1 s evs h hnd hmem
    simp only [migrateLoop] at h
    split at h
    · injection h with h1 h2
      exact Except.noConfusion h1
    · rename_i d0 hp0
      split at h
      · injection h with h1 h2
        exact Except.noConfusion h1
      · rename_i day0 hr0
        have hnd0 : s0 ∉ rest.map Prod.fst := by
          simp only [List.map_cons, List.nodup_cons] at hnd
          exact hnd.1
        have hndr : (rest.map Prod.fst).Nodup := by
          simp only [List.map_cons, List.nodup_cons] at hnd
          exact hnd.2
        rcases List.mem_cons.mp hmem with heq | hmem2
        · injection heq with hs0 hevs0
          subst hs0
          subst hevs0
          refine ⟨k, d0, day0, hp0, hr0, ?_⟩
          have hside : ∀ p ∈ rest, ∀ d2, parseDate p.1 = some d2 →
              dayFile d0 ≠ dayFile d2 := by
            intro p hp2 d2 hd2
            refine dayFile_ne_of_key_ne s p.1 d0 d2 hp0 hd2 ?_
            intro hc
            apply hnd0
            rw [hc]
            exact List.mem_map_of_mem Prod.fst hp2
          have hframe := migrateLoop_frame gen (dayFile d0) rest _ _ _ _ _ _ h hside
          rw [hframe]
          simp [writeFile]
        · have hres := ih _ _ _ _ _ _ s evs h hndr hmem2
          obtain ⟨k2, d, day, hp, hr, hout⟩ := hres
          refine ⟨k2, d, day, hp, ?_, hout⟩
          rw [← hr]
          apply readDay_eq
          have hsne : s ≠ s0 := by
            intro hc
            apply hnd0
            rw [← hc]
            exact List.mem_map_of_mem Prod.fst hmem2
          have hdne : dayFile d ≠ dayFile d0 :=
            dayFile_ne_of_key_ne s s0 d d0 hp hp0 hsne
          simp only [writeFile, if_neg hdne]

/-- The texts of the converted events are the event texts in their
original order. -/
theorem convertEvents_texts (gen : ℕ → String × Timestamp) :
    ∀ (k : ℕ) (evs : List String),
      (convertEvents gen k evs).map TodoItem.text = evs := by
  intro k evs
  induction evs generalizing k with
  | nil => rfl
  | cons e rest ih =>
    simp [convertEvents, mkMigratedTodo, ih]

/-- Every converted event todo starts not completed, not marked to
move, with empty notes. -/
theorem convertEvents_flags (gen : ℕ → String × Timestamp) :
    ∀ (k : ℕ) (evs : List String) (t : TodoItem), t ∈ convertEvents gen k evs →
      t.completed = false ∧ t.move_to_next_day = false ∧ t.notes = "" := by
  intro k evs
  induction evs generalizing k with
  | nil =>
    intro t ht
    cases ht
  | cons e rest ih =>
    intro t ht
    rcases List.mem_cons.mp ht with h | h
    · subst h
      exact ⟨rfl, rfl, rfl⟩
    · exact ih _ t h

/-- C2: for every date key of a successful migration run (with the
HashMap's distinct keys), the resulting day file holds the converted
legacy events - one todo per event text in the legacy order, each not
completed, not marked to move, with empty notes - followed by the
previously existing todos in their original order, with the day's date
and notes fields unchanged. -/
theorem c2_migrate_merge (gen : ℕ → String × Timestamp) (fs : FS) (j : Json)
    (evts : List (String × List String)) (s : String) (evs : List String)
    (msg : String) (fs1 : FS)
    (hf : fs eventsFileName = some (.json j))
    (hdec : decodeEventMap j = some evts)
    (hnd : (evts.map Prod.fst).Nodup)
    (hmem : (s, evs) ∈ evts)
    (hrun : migrate_calendar_events_to_todos gen fs = (.ok msg, fs1)) :
    ∃ k d day, parseDate s = some d ∧
      readDay "Failed to parse day data" d fs = .ok day ∧
      fs1 (dayFile d) = some (.json (encodeDayData
        ⟨day.date, convertEvents gen k evs ++ day.todos, day.notes⟩)) ∧
      (convertEvents gen k evs).map TodoItem.text = evs ∧
      (∀ t ∈ convertEvents gen k evs, t.completed = false ∧
        t.move_to_next_day = false ∧ t.notes = "") := by
  have hne : evts.isEmpty = false := by
    cases evts with
    | nil => cases hmem
    | cons a l => rfl
  simp [migrate_calendar_events_to_todos, hf, hdec, hne] at hrun
  rcases hloop : migrateLoop gen evts 0 0 [] fs with ⟨e | ⟨count, dates⟩, fsl⟩
  · simp [hloop] at hrun
  · simp [hloop] at hrun
    obtain ⟨h1, h2⟩ := hrun
    obtain ⟨k, d, day, hp, hr, hout⟩ :=
      migrateLoop_mem gen evts 0 0 [] fs (count, dates) fsl s evs hloop hnd hmem
    refine ⟨k, d, day, hp, hr, ?_, convertEvents_texts gen k evs,
      convertEvents_flags gen k evs⟩
    rw [← h2]
    simp only [renameFile]
    rw [if_neg (dayFile_ne_backupFile d), if_neg (dayFile_ne_eventsFile d)]
    exact hout

/-- A concrete id/timestamp supply for a migration run. -/
def migGen : ℕ → String × Timestamp :=
  fun n => ("mig-" ++ toString n, "2025-01-01T00:00:00+00:00")

/-- A legacy event store with two events on one date. -/
def legacyJson : Json := .obj [("2024-01-15", .arr [.str "E1", .str "E2"])]

/-- A pre-existing completed todo on that date. -/
def existingTodo : TodoItem :=
  ⟨"old-1", "Existing todo", true, "2024-01-14T08:00:00+01:00", false, ""⟩

/-- The pre-existing day record on that date. -/
def existingDay : DayData := ⟨sampleDate, [existingTodo], "Existing notes"⟩

/-- A data directory holding the legacy store and the pre-existing day
record. -/
def migFS : FS :=
  fun n =>
    if n = eventsFileName then some (.json legacyJson)
    else if n = dayFile sampleDate then some (.json (encodeDayData existingDay))
    else none

/-- Witness for C2 on the spec's merge example: two legacy events and
one completed pre-existing todo on the same date. -/
theorem c2_witness :
    ∃ k d day, parseDate "2024-01-15" = some d ∧
      readDay "Failed to parse day data" d migFS = .ok day ∧
      (migrate_calendar_events_to_todos migGen migFS).2 (dayFile d) =
        some (.json (encodeDayData
          ⟨day.date, convertEvents migGen k ["E1", "E2"] ++ day.todos, day.notes⟩)) ∧
      (convertEvents migGen k ["E1", "E2"]).map TodoItem.text = ["E1", "E2"] ∧
      (∀ t ∈ convertEvents migGen k ["E1", "E2"], t.completed = false ∧
        t.move_to_next_day = false ∧ t.notes = "") :=
  c2_migrate_merge migGen migFS legacyJson [("2024-01-15", ["E1", "E2"])]
    "2024-01-15" ["E1", "E2"] (successMsg 2 1)
    (migrate_calendar_events_to_todos migGen migFS).2
    rfl rfl (by decide) (by decide) rfl
